import Mathlib

/-!
Verification development for the `EnhancedPDFParser` text-normalization
pipeline (`enhanced_pdf_parser_with_sources.py`).

The four cleaning passes are embedded as executable functions over
`List Char` (wrapped into `String` at the interface).  Each Python
`re.sub` call is translated into a hand-written leftmost, non-overlapping
scan with a matcher specialized to that regex, reproducing greedy
matching with backtracking for the specific pattern shapes that occur
(`\d+\.?\d*`, `\s*\n\s*` followed by a non-whitespace token, `\s*\n` at a
pattern end, fixed character classes).

Note on the source file's character data: the Python source is stored
with a mangled text encoding, so the regexes literally contain the
two-byte sequences that result from that mangling (for example the
scientific-notation class is the three characters `[√óx]`, the
plus-minus literal is the two characters `¬±`, the dash class is
`[-‚Äì]`, the degree literal is the two characters `¬∞`, and the micro
sign appears as `Œº`).  The embedding reproduces those exact character
classes, since that is what the code executes.

Python's `\w` also covers non-ASCII letters; it is modelled here as
ASCII alphanumerics plus underscore, which agrees with Python on every
character occurring in the inputs of this development (the non-ASCII
characters in play -- multiplication sign, plus-minus, and the mangled
class characters -- are either symbols, hence not `\w` in Python either,
or are explicitly listed in the relevant class).  `\s` is modelled as
ASCII whitespace and `\d` as ASCII digits; the inputs contain no
non-ASCII whitespace or digits.
-/

/-- Python `\s` (restricted to the ASCII whitespace characters). -/
def isSpacePy (c : Char) : Bool :=
  c = ' ' || c = '\t' || c = '\n' || c = '\r' || c = '\x0b' || c = '\x0c'

/-- Python `\w` (ASCII fragment: letters, digits, underscore). -/
def isWordPy (c : Char) : Bool :=
  c.isAlphanum || c = '_'

/-- Longest run of characters satisfying `p` at the head, plus the rest. -/
def takeRun (p : Char → Bool) : List Char → List Char × List Char
  | [] => ([], [])
  | c :: cs =>
    if p c then
      let r := takeRun p cs
      (c :: r.1, r.2)
    else ([], c :: cs)

/-- The suffix strictly after the last newline of a list, if any newline occurs. -/
def afterLastNl : List Char → Option (List Char)
  | [] => none
  | c :: cs =>
    match afterLastNl cs with
    | some t => some t
    | none => if c = '\n' then some cs else none

/-- Matches `\s*\n\s*` when the following regex token cannot match a
whitespace character: consumes the maximal whitespace run, which must
contain a newline.  Returns the rest after the run. -/
def wsNlRun (s : List Char) : Option (List Char) :=
  let r := takeRun isSpacePy s
  if r.1.contains '\n' then some r.2 else none

/-- Matches `\s*\n` at the end of a pattern: consumes the maximal
whitespace run up to and including its last newline (greedy `\s*`
backtracks to the last newline; trailing non-newline whitespace is left
unconsumed).  Returns the rest. -/
def wsThenLastNl (s : List Char) : Option (List Char) :=
  let r := takeRun isSpacePy s
  match afterLastNl r.1 with
  | some t => some (t ++ r.2)
  | none => none

/-- Candidates for `(\d+\.?\d*)` with greedy backtracking on the optional
dot: the maximal-munch parse first, then (when a dot was taken) the
digits-only fallback.  Shorter `\d+`/`\d*` splits never help in the host
patterns because the token after the group can never match a digit. -/
def numCands (s : List Char) : List (List Char × List Char) :=
  let d1 := takeRun Char.isDigit s
  if d1.1 = [] then []
  else
    match d1.2 with
    | '.' :: r2 =>
      let d2 := takeRun Char.isDigit r2
      [(d1.1 ++ '.' :: d2.1, d2.2), (d1.1, d1.2)]
    | _ => [(d1.1, d1.2)]

/-- Greedy parse of `(\d+\.?\d*)` at a pattern end (no backtracking needed). -/
def numGreedy (s : List Char) : Option (List Char × List Char) :=
  let d1 := takeRun Char.isDigit s
  if d1.1 = [] then none
  else
    match d1.2 with
    | '.' :: r2 =>
      let d2 := takeRun Char.isDigit r2
      some (d1.1 ++ '.' :: d2.1, d2.2)
    | _ => some (d1.1, d1.2)

/-- First success of `f` over a list of alternatives (backtracking order). -/
def firstSome {α β : Type} (f : α → Option β) : List α → Option β
  | [] => none
  | a :: as =>
    match f a with
    | some b => some b
    | none => firstSome f as

/-- Leftmost, non-overlapping substitution driver: at each position try
the matcher; on a match emit its replacement and continue after the
match, otherwise keep the character and move one position right.  Fuel
is the input length; every matcher consumes at least one character. -/
def subFuel (m : List Char → Option (List Char × List Char)) :
    Nat → List Char → List Char
  | 0, s => s
  | _ + 1, [] => []
  | f + 1, c :: cs =>
    match m (c :: cs) with
    | some (rep, rest) => rep ++ subFuel m f rest
    | none => c :: subFuel m f cs

/-- Run one `re.sub` over a whole text. -/
def applySub (m : List Char → Option (List Char × List Char))
    (s : List Char) : List Char :=
  subFuel m s.length s

/-- Matcher for `(\d+\.?\d*)\s*\n\s*([%¬∞])` with replacement `\1\2`. -/
def matchPctDeg (s : List Char) : Option (List Char × List Char) :=
  firstSome (fun nc =>
    match wsNlRun nc.2 with
    | some r2 =>
      match r2 with
      | c :: r3 =>
        if c = '%' || c = '¬' || c = '∞' then some (nc.1 ++ [c], r3) else none
      | [] => none
    | none => none) (numCands s)

/-- Matcher for `(\d+\.?\d*\s*[√óx]\s*10)\s*\n\s*([-+]?\d+)` with
replacement `\1^\2` (group 1 keeps its internal whitespace verbatim). -/
def matchSciNot (s : List Char) : Option (List Char × List Char) :=
  firstSome (fun nc =>
    let w1 := takeRun isSpacePy nc.2
    match w1.2 with
    | c :: r3 =>
      if c = '√' || c = 'ó' || c = 'x' then
        let w2 := takeRun isSpacePy r3
        match w2.2 with
        | '1' :: '0' :: r5 =>
          match wsNlRun r5 with
          | some r6 =>
            match r6 with
            | c2 :: r7 =>
              if c2 = '-' || c2 = '+' then
                let d := takeRun Char.isDigit r7
                if d.1 = [] then none
                else some (nc.1 ++ w1.1 ++ c :: w2.1 ++
                  '1' :: '0' :: '^' :: c2 :: d.1, d.2)
              else
                let d := takeRun Char.isDigit r6
                if d.1 = [] then none
                else some (nc.1 ++ w1.1 ++ c :: w2.1 ++
                  '1' :: '0' :: '^' :: d.1, d.2)
            | [] => none
          | none => none
        | _ => none
      else none
    | [] => none) (numCands s)

/-- Matcher for `(\d+\.?\d*)\s*\n\s*[-‚Äì]\s*\n\s*(\d+\.?\d*)` with
replacement `\1-\2`. -/
def matchRange (s : List Char) : Option (List Char × List Char) :=
  firstSome (fun nc =>
    match wsNlRun nc.2 with
    | some r2 =>
      match r2 with
      | c :: r3 =>
        if c = '-' || c = '‚' || c = 'Ä' || c = 'ì' then
          match wsNlRun r3 with
          | some r4 =>
            match numGreedy r4 with
            | some n2 => some (nc.1 ++ '-' :: n2.1, n2.2)
            | none => none
          | none => none
        else none
      | [] => none
    | none => none) (numCands s)

/-- Matcher for `(\d+\.?\d*)\s*\n\s*¬±\s*\n\s*(\d+\.?\d*)` with
replacement `\1¬±\2` (the plus-minus literal is the mangled two-character
sequence). -/
def matchErrRange (s : List Char) : Option (List Char × List Char) :=
  firstSome (fun nc =>
    match wsNlRun nc.2 with
    | some r2 =>
      match r2 with
      | '¬' :: '±' :: r3 =>
        match wsNlRun r3 with
        | some r4 =>
          match numGreedy r4 with
          | some n2 => some (nc.1 ++ '¬' :: '±' :: n2.1, n2.2)
          | none => none
        | none => none
      | _ => none
    | none => none) (numCands s)

/-- Second group of the unit rule: `[Œºmk MGT]?[gLMVAW]|¬∞[CF]?`
(alternation tried left to right; the optional prefix is greedy with
fallback). -/
def matchUnitGroup (s : List Char) : Option (List Char × List Char) :=
  match s with
  | c :: r1 =>
    let noPref :=
      if c = 'g' || c = 'L' || c = 'M' || c = 'V' || c = 'A' || c = 'W' then
        some ([c], r1)
      else
        match c, r1 with
        | '¬', '∞' :: r2 =>
          match r2 with
          | 'C' :: r3 => some (['¬', '∞', 'C'], r3)
          | 'F' :: r3 => some (['¬', '∞', 'F'], r3)
          | _ => some (['¬', '∞'], r2)
        | _, _ => none
    if c = 'Œ' || c = 'º' || c = 'm' || c = 'k' || c = 'M' || c = 'G' || c = 'T' then
      match r1 with
      | u :: r2 =>
        if u = 'g' || u = 'L' || u = 'M' || u = 'V' || u = 'A' || u = 'W' then
          some ([c, u], r2)
        else noPref
      | [] => noPref
    else noPref
  | [] => none

/-- Matcher for `(\d+\.?\d*)\s*\n\s*([Œºmk MGT]?[gLMVAW]|¬∞[CF]?)` with
replacement `\1\2`. -/
def matchUnit (s : List Char) : Option (List Char × List Char) :=
  firstSome (fun nc =>
    match wsNlRun nc.2 with
    | some r2 =>
      match matchUnitGroup r2 with
      | some g => some (nc.1 ++ g.1, g.2)
      | none => none
    | none => none) (numCands s)

/-- `_fix_numerical_line_breaks`: the five substitutions in source order. -/
def fix_numerical_line_breaks_list (s : List Char) : List Char :=
  applySub matchUnit (applySub matchErrRange (applySub matchRange
    (applySub matchSciNot (applySub matchPctDeg s))))

/-- `re.sub(r' +', ' ', text)`: collapse space runs to a single space.
The flag records whether the previously emitted character was a space. -/
def collapseSpacesGo : Bool → List Char → List Char
  | _, [] => []
  | prev, c :: cs =>
    if c = ' ' then
      if prev then collapseSpacesGo true cs
      else ' ' :: collapseSpacesGo true cs
    else c :: collapseSpacesGo false cs

/-- `re.sub(r'\n\n+', '\n\n', text)`: cap runs of consecutive newlines at
two.  The counter is the number of newlines emitted for the current run,
capped at two. -/
def collapseNlsGo : Nat → List Char → List Char
  | _, [] => []
  | n, c :: cs =>
    if c = '\n' then
      if 2 ≤ n then collapseNlsGo n cs
      else c :: collapseNlsGo (n + 1) cs
    else c :: collapseNlsGo 0 cs

/-- Python `text.split('\n')` (keeps empty pieces). -/
def splitOnNl : List Char → List (List Char)
  | [] => [[]]
  | c :: cs =>
    if c = '\n' then [] :: splitOnNl cs
    else
      match splitOnNl cs with
      | [] => [[c]]
      | l :: ls => (c :: l) :: ls

/-- Python `str.strip()` (whitespace from both ends). -/
def pyStrip (s : List Char) : List Char :=
  ((s.dropWhile isSpacePy).reverse.dropWhile isSpacePy).reverse

/-- `line.endswith(('.', '!', '?', ':', ';'))`. -/
def endsTerm (l : List Char) : Bool :=
  match l.getLast? with
  | some c => c = '.' || c = '!' || c = '?' || c = ':' || c = ';'
  | none => false

/-- The fragment `_normalize_whitespace` appends to `cleaned_lines` for a
non-last line `l` with successor line `next`: the stripped line if it is
empty or ends in sentence punctuation before a non-empty line (or before
an empty line), and the stripped line plus one space when it is to be
joined with a non-empty successor. -/
def lineFrag (l next : List Char) : List Char :=
  let line := pyStrip l
  if line = [] then []
  else if endsTerm line && decide (pyStrip next ≠ []) then line
  else if pyStrip next ≠ [] then line ++ [' ']
  else line

/-- The per-line loop of `_normalize_whitespace`: every non-last line
contributes `lineFrag`; the last line is emitted stripped (the empty
string when blank).  The fragments are concatenated by `''.join`, i.e.
with no separator. -/
def processLines : List (List Char) → List (List Char)
  | [] => []
  | [l] => [pyStrip l]
  | l :: next :: rest => lineFrag l next :: processLines (next :: rest)

/-- `_normalize_whitespace` on character lists. -/
def normalize_whitespace_list (s : List Char) : List Char :=
  List.flatten (processLines (splitOnNl (collapseNlsGo 0 (collapseSpacesGo false s))))

/-- Membership in the essential class of
`re.sub(r'[^\w\s\.\,\-\+√ó¬∞%¬±=:/\(\)\[\]ŒºmkMGTgLVAW]', ' ', text)`
(the listed characters are the mangled forms stored in the source). -/
def symKeep (c : Char) : Bool :=
  isWordPy c || isSpacePy c ||
  c = '.' || c = ',' || c = '-' || c = '+' || c = '√' || c = 'ó' ||
  c = '¬' || c = '∞' || c = '%' || c = '±' || c = '=' || c = ':' ||
  c = '/' || c = '(' || c = ')' || c = '[' || c = ']' || c = 'Œ' ||
  c = 'º' || c = 'm' || c = 'k' || c = 'M' || c = 'G' || c = 'T' ||
  c = 'g' || c = 'L' || c = 'V' || c = 'A' || c = 'W'

/-- One character of the Symbol Filter: non-essential characters become a
single space. -/
def symSub (c : Char) : Char :=
  if symKeep c then c else ' '

/-- `_clean_preserve_numerical_symbols` on character lists. -/
def clean_preserve_numerical_symbols_list (s : List Char) : List Char :=
  s.map symSub

/-- Matcher for `\n\s*Page \d+\s*\n` (IGNORECASE) with replacement `\n`. -/
def matchPageLine (s : List Char) : Option (List Char × List Char) :=
  match s with
  | '\n' :: r0 =>
    let w := takeRun isSpacePy r0
    match w.2 with
    | c1 :: c2 :: c3 :: c4 :: ' ' :: r1 =>
      if (c1 = 'P' || c1 = 'p') && (c2 = 'a' || c2 = 'A') &&
         (c3 = 'g' || c3 = 'G') && (c4 = 'e' || c4 = 'E') then
        let d := takeRun Char.isDigit r1
        if d.1 = [] then none
        else
          match wsThenLastNl d.2 with
          | some rest => some (['\n'], rest)
          | none => none
      else none
    | _ => none
  | _ => none

/-- Matcher for `\n\s*\d+\s*\n` with replacement `\n`. -/
def matchBareNum (s : List Char) : Option (List Char × List Char) :=
  match s with
  | '\n' :: r0 =>
    let w := takeRun isSpacePy r0
    let d := takeRun Char.isDigit w.2
    if d.1 = [] then none
    else
      match wsThenLastNl d.2 with
      | some rest => some (['\n'], rest)
      | none => none
  | _ => none

/-- Count of newlines in a list. -/
def countNl (s : List Char) : Nat :=
  s.countP (fun c => c = '\n')

/-- Matcher for `\n\s*\n\s*\n+` with replacement `\n\n`: matches at a
newline whose maximal whitespace run contains at least three newlines,
and consumes through the last newline of the run (the greedy decomposition
puts the final `\n+` at the run's last newline). -/
def matchTripleNl (s : List Char) : Option (List Char × List Char) :=
  match s with
  | '\n' :: r0 =>
    let w := takeRun isSpacePy r0
    if 3 ≤ countNl ('\n' :: w.1) then
      match afterLastNl w.1 with
      | some t => some (['\n', '\n'], t ++ w.2)
      | none => none
    else none
  | _ => none

/-- Matcher for `\s+([,;:])\s+` with replacement `\1 `. -/
def matchPunctSpace (s : List Char) : Option (List Char × List Char) :=
  let w1 := takeRun isSpacePy s
  if w1.1 = [] then none
  else
    match w1.2 with
    | c :: r2 =>
      if c = ',' || c = ';' || c = ':' then
        let w2 := takeRun isSpacePy r2
        if w2.1 = [] then none
        else some ([c, ' '], w2.2)
      else none
    | [] => none

/-- `_remove_noise_keep_context` on character lists: the four
substitutions in source order, then `strip()`. -/
def remove_noise_keep_context_list (s : List Char) : List Char :=
  pyStrip (applySub matchPunctSpace (applySub matchTripleNl
    (applySub matchBareNum (applySub matchPageLine s))))

/-- `_clean_text_for_numerical_extraction` on character lists: the four
passes in pipeline order. -/
def clean_text_for_numerical_extraction_list (s : List Char) : List Char :=
  remove_noise_keep_context_list (clean_preserve_numerical_symbols_list
    (normalize_whitespace_list (fix_numerical_line_breaks_list s)))

/-- `_fix_numerical_line_breaks` (String interface). -/
def fix_numerical_line_breaks (s : String) : String :=
  ⟨fix_numerical_line_breaks_list s.data⟩

/-- `_normalize_whitespace` (String interface). -/
def normalize_whitespace (s : String) : String :=
  ⟨normalize_whitespace_list s.data⟩

/-- `_clean_preserve_numerical_symbols` (String interface). -/
def clean_preserve_numerical_symbols (s : String) : String :=
  ⟨clean_preserve_numerical_symbols_list s.data⟩

/-- `_remove_noise_keep_context` (String interface). -/
def remove_noise_keep_context (s : String) : String :=
  ⟨remove_noise_keep_context_list s.data⟩

/-- `_clean_text_for_numerical_extraction` (String interface). -/
def clean_text_for_numerical_extraction (s : String) : String :=
  ⟨clean_text_for_numerical_extraction_list s.data⟩

/-- `pat` is a leading segment of `s`. -/
def leadSeg : List Char → List Char → Bool
  | [], _ => true
  | _ :: _, [] => false
  | a :: as, b :: bs => a = b && leadSeg as bs

/-- `pat` occurs as a contiguous segment somewhere in `s`
(Python `pat in s`). -/
def hasSeg (pat : List Char) : List Char → Bool
  | [] => leadSeg pat []
  | c :: cs => leadSeg pat (c :: cs) || hasSeg pat cs

/-! ## Batch processor (`process_multiple_pdfs`) -/

structure PdfConfig where
  path : String
  source_id : String
  source_label : String
deriving DecidableEq

structure SourceDocument where
  source_id : String
  source_label : String
  file_path : String
  raw_text : String
  cleaned_text : String
deriving DecidableEq

structure ProcessingStats where
  total_documents : Nat
  successful_extractions : Nat
  failed_extractions : Nat
  total_text_length : Nat
  source_mapping : List (String × String)
deriving DecidableEq

/-- The statistics dictionary as initialized in `__init__`. -/
def initStats : ProcessingStats := ⟨0, 0, 0, 0, []⟩

/-- Python dict assignment `d[k] = v` on an association list: overwrite
an existing entry in place, otherwise append. -/
def dictSet : List (String × String) → String → String → List (String × String)
  | [], k, v => [(k, v)]
  | (k', v') :: m, k, v =>
    if k' = k then (k, v) :: m else (k', v') :: dictSet m k v

/-- One iteration of the `process_multiple_pdfs` loop.  The extraction
collaborator is a parameter: `none` models `_extract_text_from_pdf`
raising (missing file or any read error), `some raw` a successful
extraction.  On success the document is appended and the success
statistics updated; on failure only `failed_extractions` is bumped and
the loop continues.  (`processing_timestamp` is omitted: it is a
wall-clock value outside the deterministic model.) -/
def processOne (extract : String → Option String)
    (acc : List SourceDocument × ProcessingStats) (config : PdfConfig) :
    List SourceDocument × ProcessingStats :=
  match extract config.path with
  | some raw =>
    let cleaned := clean_text_for_numerical_extraction raw
    (acc.1 ++ [⟨config.source_id, config.source_label, config.path, raw, cleaned⟩],
     { acc.2 with
        successful_extractions := acc.2.successful_extractions + 1,
        total_text_length := acc.2.total_text_length + cleaned.length,
        source_mapping := dictSet acc.2.source_mapping config.source_id config.source_label })
  | none =>
    (acc.1, { acc.2 with failed_extractions := acc.2.failed_extractions + 1 })

/-- `process_multiple_pdfs`: fold the loop body over the configs starting
from an empty result list and the processor's current statistics, then
overwrite `total_documents` with this call's request count. -/
def process_multiple_pdfs (extract : String → Option String)
    (configs : List PdfConfig) (stats : ProcessingStats) :
    List SourceDocument × ProcessingStats :=
  let r := configs.foldl (processOne extract) ([], stats)
  (r.1, { r.2 with total_documents := configs.length })

/-! ## Heap model for `get_processing_statistics` (dict aliasing)

`processing_stats` is a Python dict whose `source_mapping` value is
itself a dict.  `get_processing_statistics` returns
`self.processing_stats.copy()`, a shallow copy.  To state what mutation
of the returned snapshot does, dict objects are given explicit heap
addresses: `statsObjs` stores the top-level statistics dicts,
`mapObjs` the nested mapping dicts, and a stats dict refers to its
`source_mapping` dict by address. -/

structure StatsDictObj where
  total_documents : Nat
  successful_extractions : Nat
  failed_extractions : Nat
  total_text_length : Nat
  source_mapping : Nat
deriving DecidableEq

structure PyHeap where
  statsObjs : List StatsDictObj
  mapObjs : List (List (String × String))
deriving DecidableEq

/-- Heap after `__init__`: one stats dict (address 0) whose
`source_mapping` is a fresh empty dict (address 0 of `mapObjs`). -/
def initHeap : PyHeap := ⟨[⟨0, 0, 0, 0, 0⟩], [[]]⟩

/-- The address of the parser's own `processing_stats` dict after
`__init__`. -/
def parserStatsAddr : Nat := 0

/-- `get_processing_statistics`: `self.processing_stats.copy()` allocates
a new top-level dict with the same field values — in particular the same
`source_mapping` address (a shallow copy).  Returns the new dict's
address and the extended heap. -/
def get_processing_statistics (h : PyHeap) (selfAddr : Nat) : Nat × PyHeap :=
  let obj := h.statsObjs.getD selfAddr ⟨0, 0, 0, 0, 0⟩
  (h.statsObjs.length, ⟨h.statsObjs ++ [obj], h.mapObjs⟩)

/-- Caller-side mutation `snapshot['total_documents'] = n` on the dict at
`addr`. -/
def writeTotalDocuments (h : PyHeap) (addr n : Nat) : PyHeap :=
  ⟨h.statsObjs.set addr
      { h.statsObjs.getD addr ⟨0, 0, 0, 0, 0⟩ with total_documents := n },
    h.mapObjs⟩

/-- Caller-side mutation `snapshot['source_mapping'][k] = v` on the dict
at `addr`: dereference the nested mapping address and update that shared
object. -/
def writeMappingEntry (h : PyHeap) (addr : Nat) (k v : String) : PyHeap :=
  let obj := h.statsObjs.getD addr ⟨0, 0, 0, 0, 0⟩
  ⟨h.statsObjs,
    h.mapObjs.set obj.source_mapping
      (dictSet (h.mapObjs.getD obj.source_mapping []) k v)⟩

/-- The parser's internal statistics dict. -/
def internalStats (h : PyHeap) (selfAddr : Nat) : StatsDictObj :=
  h.statsObjs.getD selfAddr ⟨0, 0, 0, 0, 0⟩

/-- The parser's internal `source_mapping` dict contents. -/
def internalMapping (h : PyHeap) (selfAddr : Nat) : List (String × String) :=
  h.mapObjs.getD (internalStats h selfAddr).source_mapping []

/-! ## Lemmas about the Whitespace Normalizer and Symbol Filter -/

theorem splitOnNl_no_nl : ∀ s : List Char, ∀ l ∈ splitOnNl s, '\n' ∉ l := by
  intro s
  induction s with
  | nil =>
    intro l hl
    simp [splitOnNl] at hl
    simp [hl]
  | cons c cs ih =>
    intro l hl
    by_cases hc : c = '\n'
    · subst hc
      simp [splitOnNl] at hl
      rcases hl with rfl | h
      · simp
      · exact ih l h
    · cases hsp : splitOnNl cs with
      | nil =>
        simp [splitOnNl, hc, hsp] at hl
        subst hl
        intro hmem
        rw [List.mem_singleton] at hmem
        exact hc hmem.symm
      | cons l0 ls =>
        simp [splitOnNl, hc, hsp] at hl
        rcases hl with rfl | h
        · intro hmem
          rcases List.mem_cons.mp hmem with h1 | h1
          · exact hc h1.symm
          · exact ih l0 (hsp ▸ List.mem_cons_self l0 ls) h1
        · exact ih l (hsp ▸ List.mem_cons_of_mem l0 h)

theorem pyStrip_no_nl {l : List Char} (h : '\n' ∉ l) : '\n' ∉ pyStrip l := by
  intro hm
  apply h
  unfold pyStrip at hm
  rw [List.mem_reverse] at hm
  have h1 := (List.dropWhile_sublist isSpacePy).subset hm
  rw [List.mem_reverse] at h1
  exact (List.dropWhile_sublist isSpacePy).subset h1

theorem lineFrag_no_nl {l : List Char} (next : List Char) (h : '\n' ∉ l) :
    '\n' ∉ lineFrag l next := by
  have hs := pyStrip_no_nl h
  simp only [lineFrag]
  split
  · simp
  · split
    · exact hs
    · split
      · intro hm
        rcases List.mem_append.mp hm with hma | hma
        · exact hs hma
        · simp at hma
      · exact hs

theorem processLines_no_nl :
    ∀ ls : List (List Char), (∀ l ∈ ls, '\n' ∉ l) →
      ∀ f ∈ processLines ls, '\n' ∉ f := by
  intro ls
  induction ls with
  | nil =>
    intro _ f hf
    simp [processLines] at hf
  | cons l rest ih =>
    intro h f hf
    cases rest with
    | nil =>
      simp [processLines] at hf
      subst hf
      exact pyStrip_no_nl (h l (List.mem_cons_self _ _))
    | cons next rest2 =>
      rw [processLines] at hf
      rcases List.mem_cons.mp hf with rfl | hf2
      · exact lineFrag_no_nl next (h l (List.mem_cons_self _ _))
      · exact ih (fun x hx => h x (List.mem_cons_of_mem _ hx)) f hf2

/-- Claim C4: for every input string, the output of the Whitespace
Normalizer pass (`_normalize_whitespace`) contains no newline character
at all: every fragment of the line pass, including the ones for lines
whose break is nominally "kept" and for empty lines, is a newline-free
piece of a `'\n'`-split, and `''.join` concatenates them with no
separator. -/
theorem normalize_whitespace_output_has_no_newline (s : String) :
    '\n' ∉ (normalize_whitespace s).data := by
  show '\n' ∉ normalize_whitespace_list s.data
  unfold normalize_whitespace_list
  intro hm
  rw [List.mem_flatten] at hm
  obtain ⟨f, hf, hmf⟩ := hm
  exact processLines_no_nl _ (splitOnNl_no_nl _) f hf hmf

theorem symSub_idem (c : Char) : symSub (symSub c) = symSub c := by
  by_cases h : symKeep c
  · simp [symSub, h]
  · simp [symSub, h]

theorem map_symSub_idem (l : List Char) :
    (l.map symSub).map symSub = l.map symSub := by
  induction l with
  | nil => rfl
  | cons c cs ih => simp [List.map_cons, symSub_idem, ih]

/-- Claim C7: the Symbol Filter pass (`_clean_preserve_numerical_symbols`)
is idempotent: the pass maps every character independently, a kept
character is kept again, and a replaced character becomes a space, which
is whitespace and hence in the essential class. -/
theorem clean_preserve_numerical_symbols_idem (T : String) :
    clean_preserve_numerical_symbols (clean_preserve_numerical_symbols T) =
      clean_preserve_numerical_symbols T := by
  show (⟨(T.data.map symSub).map symSub⟩ : String) = ⟨T.data.map symSub⟩
  rw [map_symSub_idem]

/-! ## Claim theorems on concrete pipeline runs -/

/-- Claim C1 (refuted by the code): "A.\nB" trims to a line ending in '.'
followed by a non-empty line, so the spec says the break is kept; but
`_normalize_whitespace` appends the bare trimmed line to `cleaned_lines`
and reassembles with `''.join`, so the two lines are concatenated with no
newline: the fragment list is `["A.", "B"]` and the output is `"A.B"`. -/
theorem normalize_whitespace_drops_kept_break :
    processLines (splitOnNl "A.\nB".data) = ["A.".data, "B".data] ∧
      normalize_whitespace "A.\nB" = "A.B" := by
  constructor
  · decide
  · decide

/-- Claim C2 (refuted by the code): on the scenario-1 input the percent
repair does fire ("97.2%" is produced), but the Whitespace Normalizer
destroys every newline, so the newline-bounded pattern
`\n\s*Page \d+\s*\n` of the Noise Remover cannot match and the cleaned
text still contains "Page 3". -/
theorem clean_text_scenario1_keeps_page3 :
    clean_text_for_numerical_extraction
        "Yield was 97.2\n% under standard conditions.\nPage 3\n" =
      "Yield was 97.2% under standard conditions.Page 3" ∧
    hasSeg "97.2%".data
      (clean_text_for_numerical_extraction
        "Yield was 97.2\n% under standard conditions.\nPage 3\n").data = true ∧
    hasSeg "Page 3".data
      (clean_text_for_numerical_extraction
        "Yield was 97.2\n% under standard conditions.\nPage 3\n").data = true := by
  refine ⟨?_, ?_, ?_⟩
  · decide
  · decide
  · decide

/-- Claim C3 (refuted by the code): the scientific-notation rule's
character class is the mangled `[√óx]`, which does not contain the real
multiplication sign `×`, so no caret is introduced on the scenario
input; the Symbol Filter then replaces `×` (not in the essential class)
with a space, and the cleaned text is "Rate: 1.5   10 -6 per second",
which does not contain "1.5 × 10^-6". -/
theorem clean_text_scinot_caret_missing :
    clean_text_for_numerical_extraction "Rate: 1.5 × 10\n-6 per second" =
      "Rate: 1.5   10 -6 per second" ∧
    hasSeg "1.5 × 10^-6".data
      (clean_text_for_numerical_extraction
        "Rate: 1.5 × 10\n-6 per second").data = false := by
  constructor
  · decide
  · decide

/-- Claim C10 (refuted by the code): the error-range rule requires the
mangled two-character literal `¬±`, which never matches the real `±` in
the input, so the numbers are not joined; the Whitespace Normalizer then
joins the three lines with single spaces (`±` itself survives the Symbol
Filter, whose class contains `±` as the second character of the mangled
pair), giving "Error: 95.2 ± 0.5 units", which does not contain
"95.2±0.5". -/
theorem clean_text_errbound_not_joined :
    clean_text_for_numerical_extraction "Error: 95.2\n±\n0.5 units" =
      "Error: 95.2 ± 0.5 units" ∧
    hasSeg "95.2±0.5".data
      (clean_text_for_numerical_extraction "Error: 95.2\n±\n0.5 units").data =
      false := by
  constructor
  · decide
  · decide

/-- Claim C8: the Noise Remover's standalone-number pattern
`\n\s*\d+\s*\n` is integer-only: a newline-bounded line "42" is removed
(the surrounding newlines collapse to one), while the line "42.5" is
preserved, because `\d+\s*\n` cannot cross the decimal point. -/
theorem remove_noise_integer_page_numbers_only :
    remove_noise_keep_context "Results below.\n42\nTotal shown." =
      "Results below.\nTotal shown." ∧
    remove_noise_keep_context "Results below.\n42.5\nTotal shown." =
      "Results below.\n42.5\nTotal shown." := by
  constructor
  · decide
  · decide

/-! ## Claim theorems about the batch processor -/

/-- Claim C5: in a batch of three requests on a fresh processor where the
second extraction fails and the others succeed, the failure is recorded
and skipped: the result holds exactly the documents of requests 1 and 3
in order (no placeholder for request 2), and the statistics afterwards
show 2 successes, 1 failure, and `total_documents = 3`. -/
theorem batch_skips_failed_and_counts (extract : String → Option String)
    (c1 c2 c3 : PdfConfig) (t1 t3 : String)
    (h1 : extract c1.path = some t1) (h2 : extract c2.path = none)
    (h3 : extract c3.path = some t3) :
    (process_multiple_pdfs extract [c1, c2, c3] initStats).1 =
      [⟨c1.source_id, c1.source_label, c1.path, t1,
          clean_text_for_numerical_extraction t1⟩,
        ⟨c3.source_id, c3.source_label, c3.path, t3,
          clean_text_for_numerical_extraction t3⟩] ∧
    (process_multiple_pdfs extract [c1, c2, c3] initStats).2.successful_extractions = 2 ∧
    (process_multiple_pdfs extract [c1, c2, c3] initStats).2.failed_extractions = 1 ∧
    (process_multiple_pdfs extract [c1, c2, c3] initStats).2.total_documents = 3 := by
  refine ⟨?_, ?_, ?_, ?_⟩ <;>
    simp [process_multiple_pdfs, List.foldl, processOne, h1, h2, h3, initStats]

/-- Extraction oracle for the C5 witness: the second path is missing. -/
def wExtract : String → Option String := fun p =>
  if p = "a.pdf" then some "One." else if p = "c.pdf" then some "Three." else none

/-- Witness for claim C5 at a concrete batch. -/
theorem batch_skips_failed_and_counts_witness :
    (process_multiple_pdfs wExtract
        [⟨"a.pdf", "SRC_001", "Source One"⟩, ⟨"b.pdf", "SRC_002", "Source Two"⟩,
          ⟨"c.pdf", "SRC_003", "Source Three"⟩] initStats).1 =
      [⟨"SRC_001", "Source One", "a.pdf", "One.",
          clean_text_for_numerical_extraction "One."⟩,
        ⟨"SRC_003", "Source Three", "c.pdf", "Three.",
          clean_text_for_numerical_extraction "Three."⟩] ∧
    (process_multiple_pdfs wExtract
        [⟨"a.pdf", "SRC_001", "Source One"⟩, ⟨"b.pdf", "SRC_002", "Source Two"⟩,
          ⟨"c.pdf", "SRC_003", "Source Three"⟩] initStats).2.successful_extractions = 2 ∧
    (process_multiple_pdfs wExtract
        [⟨"a.pdf", "SRC_001", "Source One"⟩, ⟨"b.pdf", "SRC_002", "Source Two"⟩,
          ⟨"c.pdf", "SRC_003", "Source Three"⟩] initStats).2.failed_extractions = 1 ∧
    (process_multiple_pdfs wExtract
        [⟨"a.pdf", "SRC_001", "Source One"⟩, ⟨"b.pdf", "SRC_002", "Source Two"⟩,
          ⟨"c.pdf", "SRC_003", "Source Three"⟩] initStats).2.total_documents = 3 :=
  batch_skips_failed_and_counts wExtract
    ⟨"a.pdf", "SRC_001", "Source One"⟩ ⟨"b.pdf", "SRC_002", "Source Two"⟩
    ⟨"c.pdf", "SRC_003", "Source Three"⟩ "One." "Three." rfl rfl rfl

/-- Claim C6: statistics accumulate across two batch calls with one
successful document each on the same processor state:
`successful_extractions` and `total_text_length` sum over both calls,
while `total_documents` equals 1 after each call individually, being
overwritten with the current call's request count. -/
theorem stats_accumulate_across_calls (extract : String → Option String)
    (c1 c2 : PdfConfig) (t1 t2 : String)
    (h1 : extract c1.path = some t1) (h2 : extract c2.path = some t2) :
    (process_multiple_pdfs extract [c1] initStats).2.total_documents = 1 ∧
    (process_multiple_pdfs extract [c2]
        (process_multiple_pdfs extract [c1] initStats).2).2.total_documents = 1 ∧
    (process_multiple_pdfs extract [c1] initStats).2.successful_extractions = 1 ∧
    (process_multiple_pdfs extract [c2]
        (process_multiple_pdfs extract [c1] initStats).2).2.successful_extractions = 2 ∧
    (process_multiple_pdfs extract [c1] initStats).2.total_text_length =
      (clean_text_for_numerical_extraction t1).length ∧
    (process_multiple_pdfs extract [c2]
        (process_multiple_pdfs extract [c1] initStats).2).2.total_text_length =
      (clean_text_for_numerical_extraction t1).length +
        (clean_text_for_numerical_extraction t2).length := by
  refine ⟨?_, ?_, ?_, ?_, ?_, ?_⟩ <;>
    simp [process_multiple_pdfs, List.foldl, processOne, h1, h2, initStats]

/-- Extraction oracle for the C6 witness. -/
def wExtract2 : String → Option String := fun p =>
  if p = "a.pdf" then some "One." else if p = "b.pdf" then some "Two two." else none

/-- Witness for claim C6 at a concrete pair of batch calls. -/
theorem stats_accumulate_across_calls_witness :
    (process_multiple_pdfs wExtract2 [⟨"a.pdf", "S1", "L1"⟩] initStats).2.total_documents = 1 ∧
    (process_multiple_pdfs wExtract2 [⟨"b.pdf", "S2", "L2"⟩]
        (process_multiple_pdfs wExtract2 [⟨"a.pdf", "S1", "L1"⟩] initStats).2).2.total_documents = 1 ∧
    (process_multiple_pdfs wExtract2 [⟨"a.pdf", "S1", "L1"⟩] initStats).2.successful_extractions = 1 ∧
    (process_multiple_pdfs wExtract2 [⟨"b.pdf", "S2", "L2"⟩]
        (process_multiple_pdfs wExtract2 [⟨"a.pdf", "S1", "L1"⟩] initStats).2).2.successful_extractions = 2 ∧
    (process_multiple_pdfs wExtract2 [⟨"a.pdf", "S1", "L1"⟩] initStats).2.total_text_length =
      (clean_text_for_numerical_extraction "One.").length ∧
    (process_multiple_pdfs wExtract2 [⟨"b.pdf", "S2", "L2"⟩]
        (process_multiple_pdfs wExtract2 [⟨"a.pdf", "S1", "L1"⟩] initStats).2).2.total_text_length =
      (clean_text_for_numerical_extraction "One.").length +
        (clean_text_for_numerical_extraction "Two two.").length :=
  stats_accumulate_across_calls wExtract2 ⟨"a.pdf", "S1", "L1"⟩ ⟨"b.pdf", "S2", "L2"⟩
    "One." "Two two." rfl rfl

/-! ## Claim C9: the statistics snapshot is only a shallow copy -/

theorem getD_append_of_lt {α : Type} (l l' : List α) (d : α) (n : Nat)
    (h : n < l.length) : (l ++ l').getD n d = l.getD n d := by
  induction l generalizing n with
  | nil => simp at h
  | cons a as ih =>
    cases n with
    | zero => rfl
    | succ k =>
      simp only [List.cons_append, List.getD_cons_succ]
      exact ih k (Nat.lt_of_succ_lt_succ h)

theorem getD_append_length {α : Type} (l : List α) (a d : α) :
    (l ++ [a]).getD l.length d = a := by
  induction l with
  | nil => rfl
  | cons b bs ih =>
    simpa only [List.cons_append, List.length_cons, List.getD_cons_succ] using ih

theorem getD_set_ne {α : Type} (l : List α) (i j : Nat) (a d : α)
    (h : i ≠ j) : (l.set i a).getD j d = l.getD j d := by
  induction l generalizing i j with
  | nil => rfl
  | cons b bs ih =>
    cases i with
    | zero =>
      cases j with
      | zero => exact absurd rfl h
      | succ k => rfl
    | succ i' =>
      cases j with
      | zero => rfl
      | succ j' =>
        simp only [List.set, List.getD_cons_succ]
        exact ih i' j' (fun e => h (by rw [e]))

theorem getD_set_eq {α : Type} (l : List α) (i : Nat) (a d : α)
    (h : i < l.length) : (l.set i a).getD i d = a := by
  induction l generalizing i with
  | nil => simp at h
  | cons b bs ih =>
    cases i with
    | zero => rfl
    | succ k =>
      simp only [List.set, List.getD_cons_succ]
      exact ih k (Nat.lt_of_succ_lt_succ h)

/-- Counterexample to claim C9: on a fresh parser, write one entry into
the snapshot's nested `source_mapping`; the parser's internal mapping
changes, because `dict.copy()` shares the nested dict.  So mutating the
returned snapshot does not leave the internal statistics unchanged. -/
theorem get_statistics_snapshot_aliases_mapping :
    internalMapping
        (writeMappingEntry (get_processing_statistics initHeap parserStatsAddr).2
          (get_processing_statistics initHeap parserStatsAddr).1 "X" "Y")
        parserStatsAddr ≠
      internalMapping initHeap parserStatsAddr := by
  decide

/-- Claim C9 as amended: the snapshot returned by
`get_processing_statistics` is a shallow copy.  Mutating a top-level
field of the snapshot leaves the parser's internal statistics dict
unchanged, but writing an entry into the snapshot's nested
`source_mapping` writes through to the parser's internal mapping (the
nested dict is shared). -/
theorem get_statistics_shallow_copy (h : PyHeap) (selfAddr n : Nat)
    (k v : String) (hs : selfAddr < h.statsObjs.length)
    (hm : (h.statsObjs.getD selfAddr ⟨0, 0, 0, 0, 0⟩).source_mapping <
      h.mapObjs.length) :
    internalStats
        (writeTotalDocuments (get_processing_statistics h selfAddr).2
          (get_processing_statistics h selfAddr).1 n) selfAddr =
      internalStats h selfAddr ∧
    internalMapping
        (writeMappingEntry (get_processing_statistics h selfAddr).2
          (get_processing_statistics h selfAddr).1 k v) selfAddr =
      dictSet (internalMapping h selfAddr) k v := by
  have hne : h.statsObjs.length ≠ selfAddr := fun e => absurd (e ▸ hs) (Nat.lt_irrefl _)
  constructor
  · simp only [internalStats, writeTotalDocuments, get_processing_statistics]
    rw [getD_set_ne _ _ _ _ _ hne, getD_append_of_lt _ _ _ _ hs]
  · simp only [internalMapping, internalStats, writeMappingEntry,
      get_processing_statistics]
    rw [getD_append_length, getD_append_of_lt _ _ _ _ hs]
    rw [getD_set_eq _ _ _ _ hm]

/-- Witness for the amended claim C9 on the freshly initialized heap. -/
theorem get_statistics_shallow_copy_witness :
    internalStats
        (writeTotalDocuments (get_processing_statistics initHeap 0).2
          (get_processing_statistics initHeap 0).1 5) 0 =
      internalStats initHeap 0 ∧
    internalMapping
        (writeMappingEntry (get_processing_statistics initHeap 0).2
          (get_processing_statistics initHeap 0).1 "X" "Y") 0 =
      dictSet (internalMapping initHeap 0) "X" "Y" :=
  get_statistics_shallow_copy initHeap 0 5 "X" "Y" (by decide) (by decide)
